import Mathlib

/-!
Verification of the Crumbelore bookstore/cafe demo application.

The development shallowly embeds the three source files:
- `src/public/js/bookSystem.js`: the `BookSystem` class (catalog + reservation
  manager) — books and reservations live in two in-memory arrays; every
  operation is synchronous within one event-loop turn, so each operation is
  modelled as a pure function from the system state (plus its ambient inputs:
  the current user from `sessionStorage` and the clock `Date.now()`) to a new
  state and a result value.  `localStorage` persistence (`saveBooks`,
  `saveReservations`) writes the very arrays held in the state, so the state
  itself stands for the persisted data; the fire-and-forget server sync does
  not change local state.
- `src/public/js/auth.js`: the `AuthSystem` class; the offline login path and
  the session-storage record it produces.
- `src/server.js`: the Express route table, and the retry loops of
  `readJsonFile` / `writeJsonFile` with the attempt outcomes abstracted as an
  oracle (`Nat → Option _`), since actual file I/O is outside the embedding.

Timestamps (`Date.now()`, ISO date strings) are modelled as integers
(milliseconds since the epoch); an ISO string and the instant it denotes are
identified, which is faithful because the code never parses the strings back
in the modelled operations.  JavaScript numbers are modelled as `Int`: every
number the modelled code computes is integral (counts, timestamps,
`parseInt` results).
-/

namespace Crumbelore

/-! ## JavaScript string and number primitives used by the source -/

/-- Character-list version of JavaScript `String.prototype.startsWith`:
`startsWithChars hay needle` is true when `needle` is an initial segment of
`hay`. -/
def startsWithChars : List Char → List Char → Bool
  | _, [] => true
  | [], _ :: _ => false
  | c :: cs, d :: ds => c == d && startsWithChars cs ds

/-- Character-list version of JavaScript `String.prototype.includes`:
true when `needle` occurs contiguously inside `hay`. -/
def containsChars : List Char → List Char → Bool
  | [], needle => startsWithChars [] needle
  | c :: cs, needle => startsWithChars (c :: cs) needle || containsChars cs needle

/-- JavaScript `hay.includes(needle)` on strings. -/
def jsIncludes (hay needle : String) : Bool :=
  containsChars hay.data needle.data

/-- JavaScript `String.prototype.toLowerCase`, restricted to the ASCII case
mapping (`Char.toLower`); the sources only compare ASCII book data. -/
def jsToLower (s : String) : String :=
  String.mk (s.data.map Char.toLower)

/-- Membership in the JavaScript `\s` character class, for the ASCII range
(space, tab, line feed, vertical tab, form feed, carriage return); the
Unicode space characters also matched by `\s` do not occur in the modelled
inputs. -/
def jsIsSpace (c : Char) : Bool :=
  c == ' ' || c == '\t' || c == '\n' || c == '\x0b' || c == '\x0c' || c == '\r'

/-- JavaScript `String.prototype.trim`: strip `\s`-class characters from both
ends. -/
def jsTrim (s : String) : String :=
  String.mk (((s.data.dropWhile jsIsSpace).reverse.dropWhile jsIsSpace).reverse)

/-- Replacement `.replace(/\s+/g, '-')`: every maximal run of whitespace
characters becomes a single hyphen. -/
def collapseSpaceRuns : List Char → List Char
  | [] => []
  | c :: cs =>
    if jsIsSpace c then '-' :: collapseSpaceRuns (cs.dropWhile jsIsSpace)
    else c :: collapseSpaceRuns cs
termination_by l => l.length
decreasing_by
  · simp only [List.length_cons]
    exact Nat.lt_succ_of_le (List.Sublist.length_le (List.dropWhile_sublist _))
  · simp

/-- Characters kept by the replacement `.replace(/[^a-z0-9-]/g, '')`. -/
def isSlugChar (c : Char) : Bool :=
  ('a' ≤ c && c ≤ 'z') || ('0' ≤ c && c ≤ '9') || c == '-'

/-- Identifier derivation of `addBook`
(`bookData.title.toLowerCase().replace(/\s+/g, '-').replace(/[^a-z0-9-]/g, '')`). -/
def slugify (title : String) : String :=
  String.mk ((collapseSpaceRuns (title.data.map Char.toLower)).filter isSlugChar)

/-- Value of a decimal digit character, `none` for non-digits. -/
def digitVal (c : Char) : Option Nat :=
  if '0' ≤ c && c ≤ '9' then some (c.toNat - '0'.toNat) else none

/-- Accumulating parse of a maximal leading digit run; the accumulator is
`none` while no digit has been consumed (JavaScript `parseInt` yields `NaN`
in that case). -/
def parseDigits : List Char → Option Nat → Option Nat
  | [], acc => acc
  | c :: cs, acc =>
    match digitVal c with
    | some d => parseDigits cs (some ((acc.getD 0) * 10 + d))
    | none => acc

/-- JavaScript `parseInt(s)` for radix-10 inputs: skip leading whitespace, an
optional sign, then a maximal digit run; `none` models `NaN`.  (The hexadecimal
`0x` literal form accepted by `parseInt` is not modelled; no modelled input
uses it.) -/
def jsParseInt (s : String) : Option Int :=
  match s.data.dropWhile jsIsSpace with
  | '-' :: rest => (parseDigits rest none).map (fun n => -(n : Int))
  | '+' :: rest => (parseDigits rest none).map (fun n => (n : Int))
  | cs => (parseDigits cs none).map (fun n => (n : Int))

/-- The pattern `parseInt(x) || d` of the source: the fallback `d` is used when
`parseInt` yields `NaN` or the falsy number `0` (including `-0`). -/
def parseIntOrDefault (s : String) (d : Int) : Int :=
  match jsParseInt s with
  | none => d
  | some n => if n = 0 then d else n

/-- In-place mutation of the first array element satisfying `p` (JavaScript
`array.find(p)` followed by field assignments on the returned reference):
only the first match is replaced by `f` of it, the rest of the list is
untouched.  When nothing matches the list is unchanged. -/
def modifyFirst (p : α → Bool) (f : α → α) : List α → List α
  | [] => []
  | x :: xs => if p x then f x :: xs else x :: modifyFirst p f xs

/-! ## Data model (`src/public/js/bookSystem.js`, `src/public/js/auth.js`) -/

/-- Book record of the catalog.  `rating` is a JavaScript number; only
integer-valued ratings appear in the modelled operations (`addBook` writes
`0`), so `Int` suffices. -/
structure Book where
  id : String
  title : String
  author : String
  genre : String
  description : String
  totalCopies : Int
  availableCopies : Int
  rating : Int
  isbn : String
  pages : Int
  year : Int
  icon : String
  tags : List String
deriving DecidableEq, Repr

/-- Reservation record.  `status` is the literal string `"active"` or
`"cancelled"` exactly as in the source; `cancelledDate` is absent until a
cancellation stamps it. -/
structure Reservation where
  id : String
  bookId : String
  userId : Int
  userEmail : String
  userName : String
  bookTitle : String
  bookAuthor : String
  reservationDate : Int
  expiryDate : Int
  status : String
  notes : String
  cancelledDate : Option Int
deriving DecidableEq, Repr

/-- User record as produced by the auth system (`{id, email, name, type}`). -/
structure User where
  id : Int
  email : String
  name : String
  type : String
deriving DecidableEq, Repr

/-- State of the `BookSystem` class: its `books` and `reservations` arrays.
(`localStorage` persistence writes exactly these arrays, so no separate
persisted copy is modelled.) -/
structure BookSystem where
  books : List Book
  reservations : List Reservation
deriving DecidableEq, Repr

/-! ## Catalog operations -/

/-- Method `getBookById`: `this.books.find(book => book.id === bookId)`. -/
def getBookById (s : BookSystem) (bookId : String) : Option Book :=
  s.books.find? (fun b => b.id == bookId)

/-- Query part of the `searchBooks` filter: title, author, genre or any tag
contains the lowercased search term. -/
def matchesQuery (searchTerm : String) (b : Book) : Bool :=
  jsIncludes (jsToLower b.title) searchTerm ||
  jsIncludes (jsToLower b.author) searchTerm ||
  jsIncludes (jsToLower b.genre) searchTerm ||
  b.tags.any (fun tag => jsIncludes (jsToLower tag) searchTerm)

/-- Method `searchBooks(query, genre = null)`.  The genre argument may be the
JavaScript `null` default, modelled as `none`; a present string is `some`.
The first filter runs only when `query && query.trim()` is truthy; the second
only when `genre && genre !== 'all'` is truthy. -/
def searchBooks (s : BookSystem) (query : String) (genre : Option String) : List Book :=
  let filteredBooks := s.books
  let filteredBooks :=
    if query ≠ "" && jsTrim query ≠ "" then
      filteredBooks.filter (matchesQuery (jsToLower query))
    else filteredBooks
  match genre with
  | none => filteredBooks
  | some g =>
    if g ≠ "" && g ≠ "all" then
      filteredBooks.filter (fun b => jsIncludes (jsToLower b.genre) (jsToLower g))
    else filteredBooks

/-! ## Reservation manager -/

/-- Result shape of `reserveBook`: `{success: true, reservationId, expiryDate}`
or `{success: false, error}`.  Each `failure` constructor carries the thrown
message that the `catch` block returns. -/
inductive ReserveResult
  | ok (reservationId : String) (expiryDate : Int)
  | failure (error : String)
deriving DecidableEq, Repr

/-- Length of seven days in milliseconds, `7 * 24 * 60 * 60 * 1000`. -/
def sevenDaysMs : Int := 7 * 24 * 60 * 60 * 1000

/-- Method `reserveBook(bookId, reservationData)`.  Ambient inputs are made
explicit: `currentUser` is `window.authSystem.getCurrentUser()` (with
`isAuthenticated()` equivalent to it being `some`), `now` is `Date.now()`.
`reservationNotes` models `reservationData?.notes` (`none` when the data or
the field is absent).  The two date reads (`new Date().toISOString()` and
`Date.now()` on the next line) happen in the same event-loop turn and are
modelled as the single instant `now`. -/
def reserveBook (s : BookSystem) (currentUser : Option User) (now : Int)
    (bookId : String) (reservationNotes : Option String) :
    BookSystem × ReserveResult :=
  match currentUser with
  | none => (s, .failure "Please log in to reserve books")
  | some user =>
    match s.books.find? (fun b => b.id == bookId) with
    | none => (s, .failure "Book not found")
    | some book =>
      if book.availableCopies ≤ 0 then
        (s, .failure "No copies available for reservation")
      else if s.reservations.any (fun r =>
          r.bookId == bookId && r.userId == user.id && r.status == "active") then
        (s, .failure "You already have this book reserved")
      else
        let reservation : Reservation := {
          id := "RES-" ++ toString now
          bookId := bookId
          userId := user.id
          userEmail := user.email
          userName := user.name
          bookTitle := book.title
          bookAuthor := book.author
          reservationDate := now
          expiryDate := now + sevenDaysMs
          status := "active"
          notes := reservationNotes.getD ""
          cancelledDate := none }
        ({ books := modifyFirst (fun b => b.id == bookId)
              (fun b => { b with availableCopies := b.availableCopies - 1 }) s.books
           reservations := s.reservations ++ [reservation] },
         .ok reservation.id reservation.expiryDate)

/-- Result shape of `cancelReservation`: `{success: true}` or
`{success: false, error}`. -/
inductive CancelResult
  | ok
  | failure (error : String)
deriving DecidableEq, Repr

/-- Message of the TypeError a JavaScript engine throws for
`reservation.userId !== user.id` when `getCurrentUser()` returned `null`;
the exact engine wording is irrelevant, only that the catch block turns it
into a failure result. -/
def nullUserMessage : String := "TypeError: user is null"

/-- Method `cancelReservation(reservationId)`.  The source finds the
reservation, checks ownership against `getCurrentUser()`, flips the status to
`"cancelled"` and stamps `cancelledDate`, then increments `availableCopies`
of the referenced book if — and only if — that book still exists.  Note there
is no check of the reservation's current status: an already-cancelled
reservation passes straight through to the increment. -/
def cancelReservation (s : BookSystem) (currentUser : Option User) (now : Int)
    (reservationId : String) : BookSystem × CancelResult :=
  match s.reservations.find? (fun r => r.id == reservationId) with
  | none => (s, .failure "Reservation not found")
  | some reservation =>
    match currentUser with
    | none => (s, .failure nullUserMessage)
    | some user =>
      if reservation.userId ≠ user.id then
        (s, .failure "Unauthorized to cancel this reservation")
      else
        ({ books := modifyFirst (fun b => b.id == reservation.bookId)
              (fun b => { b with availableCopies := b.availableCopies + 1 }) s.books
           reservations := modifyFirst (fun r => r.id == reservationId)
              (fun r => { r with status := "cancelled", cancelledDate := some now })
              s.reservations },
         .ok)

/-! ## Admin functions of the catalog -/

/-- Genre-to-icon table of `getGenreIcon`, in source order. -/
def iconMap : List (String × String) := [
  ("Mystery & Thriller", "fas fa-search"),
  ("Romance", "fas fa-heart"),
  ("Science Fiction", "fas fa-rocket"),
  ("Fantasy", "fas fa-magic"),
  ("Self-Help", "fas fa-brain"),
  ("Biography", "fas fa-user"),
  ("History", "fas fa-landmark"),
  ("Poetry", "fas fa-feather-alt"),
  ("Young Adult", "fas fa-star")]

/-- Method `getGenreIcon(genre)`: table lookup with the fallback
`'fas fa-book'` for genres not in the table. -/
def getGenreIcon (genre : String) : String :=
  match iconMap.find? (fun kv => kv.1 == genre) with
  | some kv => kv.2
  | none => "fas fa-book"

/-- Input object of `addBook`.  Fields read with `|| fallback` in the source
may be absent (JavaScript `undefined`), hence `Option`; the numeric form
fields (`copies`, `pages`, `year`) arrive as strings and go through
`parseInt`. -/
structure BookData where
  title : String
  author : String
  genre : String
  description : Option String
  copies : String
  isbn : Option String
  pages : String
  year : String
  tags : Option (List String)
deriving DecidableEq, Repr

/-- Method `addBook(bookData)`.  `currentYear` is
`new Date().getFullYear()`.  Returns the updated state and the appended
book. -/
def addBook (s : BookSystem) (currentYear : Int) (d : BookData) :
    BookSystem × Book :=
  let book : Book := {
    id := slugify d.title
    title := d.title
    author := d.author
    genre := d.genre
    description := d.description.getD ""
    totalCopies := parseIntOrDefault d.copies 1
    availableCopies := parseIntOrDefault d.copies 1
    rating := 0
    isbn := d.isbn.getD ""
    pages := parseIntOrDefault d.pages 0
    year := parseIntOrDefault d.year currentYear
    icon := getGenreIcon d.genre
    tags := d.tags.getD [] }
  ({ s with books := s.books ++ [book] }, book)

/-- Patch object of `updateBook`: one optional slot per key present on a
`Book` (`key in book` admits exactly these; `undefined` values, here `none`,
are skipped). -/
structure BookPatch where
  id : Option String := none
  title : Option String := none
  author : Option String := none
  genre : Option String := none
  description : Option String := none
  totalCopies : Option Int := none
  availableCopies : Option Int := none
  rating : Option Int := none
  isbn : Option String := none
  pages : Option Int := none
  year : Option Int := none
  icon : Option String := none
  tags : Option (List String) := none
deriving DecidableEq, Repr

/-- Field-wise overwrite loop of `updateBook`
(`Object.keys(updates).forEach(...)`). -/
def applyPatch (b : Book) (p : BookPatch) : Book := {
  id := p.id.getD b.id
  title := p.title.getD b.title
  author := p.author.getD b.author
  genre := p.genre.getD b.genre
  description := p.description.getD b.description
  totalCopies := p.totalCopies.getD b.totalCopies
  availableCopies := p.availableCopies.getD b.availableCopies
  rating := p.rating.getD b.rating
  isbn := p.isbn.getD b.isbn
  pages := p.pages.getD b.pages
  year := p.year.getD b.year
  icon := p.icon.getD b.icon
  tags := p.tags.getD b.tags }

/-- Method `updateBook(bookId, updates)`: patches the first book whose id
matches (the source mutates the object reference returned by `find`) and
returns it, or returns `null` (`none`) when no book matches. -/
def updateBook (s : BookSystem) (bookId : String) (p : BookPatch) :
    BookSystem × Option Book :=
  match s.books.find? (fun b => b.id == bookId) with
  | none => (s, none)
  | some b =>
    ({ s with books := (modifyFirst (fun x => x.id == bookId)
          (fun x => applyPatch x p) s.books) },
     some (applyPatch b p))

/-- Method `deleteBook(bookId)`: `findIndex` + `splice(index, 1)` removes the
first matching book; every active reservation referencing the id is forced to
`"cancelled"` with a stamped `cancelledDate`. -/
def deleteBook (s : BookSystem) (now : Int) (bookId : String) :
    BookSystem × Bool :=
  match s.books.findIdx? (fun b => b.id == bookId) with
  | none => (s, false)
  | some index =>
    ({ books := s.books.eraseIdx index
       reservations := s.reservations.map (fun r =>
         if r.bookId == bookId && r.status == "active" then
           { r with status := "cancelled", cancelledDate := some now }
         else r) },
     true)

/-- Method `isBookAvailable(bookId)`: the book exists and has a positive
`availableCopies`. -/
def isBookAvailable (s : BookSystem) (bookId : String) : Bool :=
  match getBookById s bookId with
  | some book => 0 < book.availableCopies
  | none => false

/-! ## Auth system (`src/public/js/auth.js`) -/

/-- Keys of `sessionStorage` that the auth system uses.  `currentUser` holds
`JSON.stringify` of the user object; serialization is injective on user
records, so the deserialized view is stored.  `authExpiry` holds the decimal
rendering of a millisecond timestamp, modelled as the timestamp. -/
structure SessionStorage where
  authToken : Option String
  currentUser : Option User
  userType : Option String
  authExpiry : Option Int
deriving DecidableEq, Repr

/-- Session storage with no keys set. -/
def SessionStorage.empty : SessionStorage :=
  { authToken := none, currentUser := none, userType := none, authExpiry := none }

/-- Result shape of `login` / `handleOfflineLogin`:
`{success: true, user}` or `{success: false, error}`. -/
inductive LoginResult
  | ok (user : User)
  | failure (error : String)
deriving DecidableEq, Repr

/-- Method `handleOfflineLogin(email, password, userType)` together with the
empty-credentials guard it begins with; `now` is `Date.now()` (the `id` and
the token suffix read the clock in the same turn).  Note that this path
performs its own three `sessionStorage.setItem` calls and never calls
`storeSession`, so `authExpiry` is left untouched. -/
def handleOfflineLogin (ss : SessionStorage) (now : Int)
    (email password userType : String) : SessionStorage × LoginResult :=
  if email = "" || password = "" then
    (ss, .failure "Email and password required")
  else if !jsIncludes email "@" then
    (ss, .failure "Invalid email format")
  else
    let demoUser : User := {
      id := now
      email := email
      name := String.mk (email.data.takeWhile (fun c => c ≠ '@'))
      type := userType }
    ({ ss with
        authToken := some ("demo-token-" ++ toString now)
        currentUser := some demoUser
        userType := some userType },
     .ok demoUser)

/-- Method `storeSession(token, user, userType)`: used by the connected-mode
login path; the only writer of `authExpiry` (a fixed 4-hour lifetime). -/
def storeSession (ss : SessionStorage) (now : Int) (token : String)
    (user : User) (userType : String) : SessionStorage :=
  { ss with
      authToken := some token
      currentUser := some user
      userType := some userType
      authExpiry := some (now + 4 * 60 * 60 * 1000) }

/-! ## HTTP surface (`src/server.js`)

Express dispatches a request to the first registered route whose method and
path match; `src/server.js` registers the routes below (in this order) and
then a catch-all 404 handler.  The `express.static(__dirname)` middleware can
only answer paths naming an existing file under the server directory; no file
exists under an `api/` directory, so it never captures `/api/...` paths and
is omitted from the dispatch model. -/

/-- HTTP methods used by the server. -/
inductive Method
  | GET
  | POST
deriving DecidableEq, Repr

/-- Route table of `src/server.js`, in registration order. -/
def serverRoutes : List (Method × String) := [
  (.GET, "/health"),
  (.POST, "/api/auth/login"),
  (.GET, "/api/books"),
  (.POST, "/api/books"),
  (.POST, "/api/books/sync"),
  (.POST, "/api/orders"),
  (.GET, "/api/orders"),
  (.GET, "/api/dashboard/stats")]

/-- Dispatch outcome: either a registered route handles the request, or it
falls through to the catch-all 404 handler. -/
inductive Dispatch
  | handler (method : Method) (path : String)
  | notFound
deriving DecidableEq, Repr

/-- Express dispatch over the server's route table. -/
def dispatch (m : Method) (p : String) : Dispatch :=
  match serverRoutes.find? (fun r => r.1 == m && r.2 == p) with
  | some r => .handler r.1 r.2
  | none => .notFound

/-- Status code produced for a dispatch outcome when the outcome is the
catch-all handler: `res.status(404).json({message: 'Endpoint not found'})`. -/
def dispatchStatus : Dispatch → Option Nat
  | .handler _ _ => none
  | .notFound => some 404

/-! ## Record store retry loops (`src/server.js`)

The `try` bodies (file read + `JSON.parse`, or backup-copy + file write) are
abstracted as an oracle giving each attempt's outcome; the loops themselves
are modelled exactly.  The second component of each result counts the
`setTimeout(resolve, 100)` delays performed (one fixed 100 ms delay after
every failed attempt except the last). -/

/-- Loop body of `readJsonFile(filename, retries)`.  `attempt i = some v`
means iteration `i` read and parsed the collection as `v`; `none` means it
threw.  `remaining` is the number of loop iterations left, so `remaining = 0`
is the fall-off-the-loop case (JavaScript returns `undefined`, modelled as
`none`; unreachable when `retries ≥ 1`), and `remaining = 1` makes
`i === retries - 1` true. -/
def readLoop (attempt : Nat → Option (List α)) :
    Nat → Nat → Nat → Option (List α) × Nat
  | 0, _, delays => (none, delays)
  | remaining + 1, i, delays =>
    match attempt i with
    | some v => (some v, delays)
    | none =>
      if remaining = 0 then (some [], delays)
      else readLoop attempt remaining (i + 1) (delays + 1)

/-- Function `readJsonFile(filename, retries = 3)` with the per-attempt I/O
abstracted by `attempt`. -/
def readJsonFile (attempt : Nat → Option (List α)) (retries : Nat := 3) :
    Option (List α) × Nat :=
  readLoop attempt retries 0 0

/-- Loop body of `writeJsonFile(filename, data, retries)`.  `attempt i = true`
means iteration `i` wrote the file (the preceding best-effort backup copy
swallows its own errors and cannot fail the attempt); `false` means the write
threw. -/
def writeLoop (attempt : Nat → Bool) : Nat → Nat → Nat → Option Bool × Nat
  | 0, _, delays => (none, delays)
  | remaining + 1, i, delays =>
    if attempt i then (some true, delays)
    else if remaining = 0 then (some false, delays)
    else writeLoop attempt remaining (i + 1) (delays + 1)

/-- Function `writeJsonFile(filename, data, retries = 3)` with the
per-attempt I/O abstracted by `attempt`. -/
def writeJsonFile (attempt : Nat → Bool) (retries : Nat := 3) :
    Option Bool × Nat :=
  writeLoop attempt retries 0 0

/-! ## Operation sequences over the book system

The claims about the `0 ≤ availableCopies ≤ totalCopies` invariant quantify
over sequences of catalog and reservation-manager operations; `Op` packages
one call together with its ambient inputs (current user, clock). -/

/-- One call to a state-changing `BookSystem` method. -/
inductive Op
  | reserve (currentUser : Option User) (now : Int) (bookId : String)
      (notes : Option String)
  | cancel (currentUser : Option User) (now : Int) (reservationId : String)
  | add (currentYear : Int) (d : BookData)
  | update (bookId : String) (p : BookPatch)
  | delete (now : Int) (bookId : String)
deriving Repr

/-- State reached after one operation (results discarded). -/
def applyOp (s : BookSystem) : Op → BookSystem
  | .reserve u now bid notes => (reserveBook s u now bid notes).1
  | .cancel u now rid => (cancelReservation s u now rid).1
  | .add y d => (addBook s y d).1
  | .update bid p => (updateBook s bid p).1
  | .delete now bid => (deleteBook s now bid).1

/-- State reached after a sequence of operations, applied left to right. -/
def applyOps (s : BookSystem) : List Op → BookSystem
  | [] => s
  | op :: ops => applyOps (applyOp s op) ops

/-- Number of reservations in status `"active"` that reference the book id. -/
def countActiveFor (rs : List Reservation) (bookId : String) : Nat :=
  (rs.filter (fun r => r.bookId == bookId && r.status == "active")).length

/-- Copy-count invariant of the claim: every book satisfies
`0 ≤ availableCopies ≤ totalCopies`. -/
def CopiesInvariant (s : BookSystem) : Prop :=
  ∀ b ∈ s.books, 0 ≤ b.availableCopies ∧ b.availableCopies ≤ b.totalCopies

instance : DecidablePred CopiesInvariant := fun s =>
  inferInstanceAs (Decidable (∀ b ∈ s.books, _ ∧ _))

/-- Inductive consistency of a book-system state: book identifiers are
pairwise distinct, every active reservation references a present book, and
each book's available copies plus its active reservations stay within
`totalCopies` (with `availableCopies` nonnegative). -/
def Consistent (s : BookSystem) : Prop :=
  (s.books.map (fun b => b.id)).Nodup ∧
  (∀ r ∈ s.reservations, r.status = "active" →
    ∃ b ∈ s.books, b.id = r.bookId) ∧
  (∀ b ∈ s.books, 0 ≤ b.availableCopies ∧
    b.availableCopies + (countActiveFor s.reservations b.id : Int) ≤ b.totalCopies)

instance : DecidablePred Consistent := fun _ =>
  inferInstanceAs (Decidable (_ ∧ _ ∧ _))

/-- Side condition under which one operation keeps a consistent state
consistent: a cancel may only target a reservation that is still active, an
add must carry a fresh identifier and a nonnegative parsed copies value, and
an update may not patch `id`, `totalCopies` or `availableCopies`.  (Reserve
and delete need no condition.) -/
def opAllowed (s : BookSystem) : Op → Prop
  | .reserve _ _ _ _ => True
  | .cancel _ _ rid =>
    (s.reservations.find? (fun r => r.id == rid)).all
      (fun r => r.status == "active") = true
  | .add _ d =>
    0 ≤ parseIntOrDefault d.copies 1 ∧
    slugify d.title ∉ s.books.map (fun b => b.id)
  | .update _ p =>
    p.id = none ∧ p.totalCopies = none ∧ p.availableCopies = none
  | .delete _ _ => True

instance (s : BookSystem) : DecidablePred (opAllowed s) := fun op => by
  cases op <;> simp only [opAllowed] <;> infer_instance

/-- Every operation of the sequence is allowed in the state it runs in. -/
def opsAllowed (s : BookSystem) : List Op → Prop
  | [] => True
  | op :: ops => opAllowed s op ∧ opsAllowed (applyOp s op) ops

instance (s : BookSystem) : DecidablePred (opsAllowed s) := fun ops => by
  induction ops generalizing s with
  | nil => exact inferInstanceAs (Decidable True)
  | cons op ops ih => exact @instDecidableAnd _ _ _ (ih (applyOp s op))

/-! ## List helper lemmas -/

theorem modifyFirst_append (p : α → Bool) (f : α → α) (l1 : List α) (a : α)
    (l2 : List α) (h1 : ∀ x ∈ l1, p x = false) (ha : p a = true) :
    modifyFirst p f (l1 ++ a :: l2) = l1 ++ f a :: l2 := by
  induction l1 with
  | nil => simp [modifyFirst, ha]
  | cons x xs ih =>
    have hx : p x = false := h1 x (List.mem_cons_self x xs)
    simp only [List.cons_append, modifyFirst, hx, Bool.false_eq_true, if_false,
      List.cons.injEq, true_and]
    exact ih (fun y hy => h1 y (List.mem_cons_of_mem x hy))

theorem modifyFirst_eq_self (p : α → Bool) (f : α → α) (l : List α)
    (h : ∀ x ∈ l, p x = false) : modifyFirst p f l = l := by
  induction l with
  | nil => rfl
  | cons x xs ih =>
    have hx : p x = false := h x (List.mem_cons_self x xs)
    simp only [modifyFirst, hx, Bool.false_eq_true, if_false, List.cons.injEq, true_and]
    exact ih (fun y hy => h y (List.mem_cons_of_mem x hy))

/-- Decomposition of a successful `find?`: the list splits at the first
match. -/
theorem find?_decomp {p : α → Bool} {l : List α} {a : α}
    (h : l.find? p = some a) :
    p a = true ∧ ∃ l1 l2, l = l1 ++ a :: l2 ∧ ∀ x ∈ l1, p x = false := by
  obtain ⟨hpa, l1, l2, hl, hl1⟩ := List.find?_eq_some.mp h
  exact ⟨hpa, l1, l2, hl, fun x hx => by simpa using hl1 x hx⟩

theorem countActiveFor_append (rs1 rs2 : List Reservation) (t : String) :
    countActiveFor (rs1 ++ rs2) t = countActiveFor rs1 t + countActiveFor rs2 t := by
  simp [countActiveFor, List.filter_append]

theorem countActiveFor_cons (r : Reservation) (rs : List Reservation) (t : String) :
    countActiveFor (r :: rs) t =
      (if r.bookId == t && r.status == "active" then 1 else 0) + countActiveFor rs t := by
  simp only [countActiveFor, List.filter_cons]
  split <;> simp [Nat.add_comm]

theorem countActiveFor_middle (R1 R2 : List Reservation) (r : Reservation) (t : String) :
    countActiveFor (R1 ++ r :: R2) t =
      countActiveFor R1 t + (if r.bookId == t && r.status == "active" then 1 else 0) +
        countActiveFor R2 t := by
  rw [countActiveFor_append, countActiveFor_cons]; omega

theorem countActiveFor_eq_zero {rs : List Reservation} {t : String}
    (h : ∀ r ∈ rs, r.status = "active" → r.bookId ≠ t) :
    countActiveFor rs t = 0 := by
  simp only [countActiveFor, List.length_eq_zero, List.filter_eq_nil_iff]
  intro r hr
  simp only [Bool.and_eq_true, beq_iff_eq, not_and]
  intro hbid hact
  exact absurd hbid (h r hr hact)

/-- Transport of existence of a book with a given id along equal id lists. -/
theorem exists_book_id_congr {l l' : List Book}
    (h : l.map (fun b => b.id) = l'.map (fun b => b.id)) {t : String} :
    (∃ b ∈ l, b.id = t) → ∃ b ∈ l', b.id = t := by
  intro ⟨b, hb, hbt⟩
  have ht : t ∈ l'.map (fun b => b.id) := by
    rw [← h]; exact List.mem_map.mpr ⟨b, hb, hbt⟩
  obtain ⟨b', hb', hb't⟩ := List.mem_map.mp ht
  exact ⟨b', hb', hb't⟩

/-! ## Preservation of consistency, operation by operation -/

theorem consistent_reserve_core (B1 B2 : List Book) (book : Book)
    (rs : List Reservation) (res : Reservation)
    (hc : Consistent ⟨B1 ++ book :: B2, rs⟩)
    (hbid : res.bookId = book.id) (hact : res.status = "active")
    (havail : 0 < book.availableCopies) :
    Consistent ⟨B1 ++ { book with availableCopies := book.availableCopies - 1 } :: B2,
      rs ++ [res]⟩ := by
  obtain ⟨hnd, href, hcnt⟩ := hc
  have hids : (B1 ++ { book with availableCopies := book.availableCopies - 1 } :: B2).map
        (fun b => b.id) =
      (B1 ++ book :: B2).map (fun b => b.id) := by simp
  have hne : (∀ x ∈ B1, ¬x.id = book.id) ∧ (∀ x ∈ B2, ¬x.id = book.id) := by
    have h1 : (List.map (fun b => b.id) B1 ++ book.id :: List.map (fun b => b.id) B2).Nodup := by
      simpa using hnd
    have h2 := List.nodup_middle.mp h1
    simpa using (List.nodup_cons.mp h2).1
  refine ⟨by rw [hids]; exact hnd, ?_, ?_⟩
  · intro r hr hrac
    rcases List.mem_append.mp hr with hr | hr
    · exact exists_book_id_congr hids.symm (href r hr hrac)
    · have : r = res := by simpa using hr
      subst this
      exact ⟨{ book with availableCopies := book.availableCopies - 1 }, by simp, by
        simpa using hbid.symm⟩
  · intro b hb
    rcases List.mem_append.mp hb with hb | hb
    · -- book in the untouched head segment
      have hbm : b ∈ B1 ++ book :: B2 := List.mem_append_left _ hb
      have hb_ne : b.id ≠ book.id := hne.1 b hb
      obtain ⟨h0, hbound⟩ := hcnt b hbm
      refine ⟨h0, ?_⟩
      rw [countActiveFor_append, countActiveFor_cons]
      have : (res.bookId == b.id && res.status == "active") = false := by
        simp [hbid, hact]
        intro h
        exact absurd h.symm hb_ne
      rw [this]
      simpa [countActiveFor] using hbound
    · rcases List.mem_cons.mp hb with hb | hb
      · -- the decremented book itself
        subst hb
        obtain ⟨h0, hbound⟩ := hcnt book (by simp)
        have hcount : countActiveFor (rs ++ [res]) book.id =
            countActiveFor rs book.id + 1 := by
          rw [countActiveFor_append, countActiveFor_cons]
          simp [hbid, hact, countActiveFor]
        refine ⟨by simpa using havail, ?_⟩
        simp only [hcount]
        push_cast
        push_cast at hbound
        omega
      · -- book in the untouched tail segment
        have hbm : b ∈ B1 ++ book :: B2 :=
          List.mem_append_right _ (List.mem_cons_of_mem _ hb)
        have hb_ne : b.id ≠ book.id := hne.2 b hb
        obtain ⟨h0, hbound⟩ := hcnt b hbm
        refine ⟨h0, ?_⟩
        rw [countActiveFor_append, countActiveFor_cons]
        have : (res.bookId == b.id && res.status == "active") = false := by
          simp [hbid, hact]
          intro h
          exact absurd h.symm hb_ne
        rw [this]
        simpa [countActiveFor] using hbound

theorem consistent_reserveBook (s : BookSystem) (u : Option User) (now : Int)
    (bid : String) (notes : Option String) (hs : Consistent s) :
    Consistent (reserveBook s u now bid notes).1 := by
  cases u with
  | none => simpa [reserveBook] using hs
  | some user =>
    cases hfind : s.books.find? (fun b => b.id == bid) with
    | none => simpa [reserveBook, hfind] using hs
    | some book =>
      by_cases havail : book.availableCopies ≤ 0
      · simpa [reserveBook, hfind, havail] using hs
      · by_cases hdup : (s.reservations.any (fun r =>
            r.bookId == bid && r.userId == user.id && r.status == "active")) = true
        · simpa [reserveBook, hfind, havail, hdup] using hs
        · obtain ⟨hp, B1, B2, hB, hB1⟩ := find?_decomp hfind
          have hbid : book.id = bid := by simpa using hp
          have hmod : modifyFirst (fun b => b.id == bid)
              (fun b => { b with availableCopies := b.availableCopies - 1 }) s.books =
              B1 ++ { book with availableCopies := book.availableCopies - 1 } :: B2 := by
            rw [hB]; exact modifyFirst_append _ _ _ _ _ hB1 hp
          simp only [reserveBook, hfind, havail, if_false, hdup, hmod]
          exact consistent_reserve_core B1 B2 book s.reservations _
            (by rw [← hB]; exact hs) (by simpa using hbid.symm) rfl (by omega)

theorem consistent_cancel_core (B1 B2 : List Book) (book : Book)
    (R1 R2 : List Reservation) (r : Reservation) (now : Int)
    (hc : Consistent ⟨B1 ++ book :: B2, R1 ++ r :: R2⟩)
    (hbid : book.id = r.bookId) (hact : r.status = "active") :
    Consistent ⟨B1 ++ { book with availableCopies := book.availableCopies + 1 } :: B2,
      R1 ++ { r with status := "cancelled", cancelledDate := some now } :: R2⟩ := by
  obtain ⟨hnd, href, hcnt⟩ := hc
  have hids : (B1 ++ { book with availableCopies := book.availableCopies + 1 } :: B2).map
        (fun b => b.id) =
      (B1 ++ book :: B2).map (fun b => b.id) := by simp
  refine ⟨by rw [hids]; exact hnd, ?_, ?_⟩
  · intro r2 hr2 hr2ac
    rcases List.mem_append.mp hr2 with hr2 | hr2
    · exact exists_book_id_congr hids.symm
        (href r2 (List.mem_append_left _ hr2) hr2ac)
    · rcases List.mem_cons.mp hr2 with hr2 | hr2
      · rw [hr2] at hr2ac; simp at hr2ac
      · exact exists_book_id_congr hids.symm
          (href r2 (List.mem_append_right _ (List.mem_cons_of_mem _ hr2)) hr2ac)
  · intro b hb
    have hcancelled : ({ r with status := "cancelled", cancelledDate := some now } :
        Reservation).status ≠ "active" := by simp
    rcases List.mem_append.mp hb with hb | hb
    · obtain ⟨h0, hbound⟩ := hcnt b (List.mem_append_left _ hb)
      refine ⟨h0, ?_⟩
      rw [countActiveFor_middle] at hbound ⊢
      have hmid : (({ r with status := "cancelled", cancelledDate := some now } :
          Reservation).bookId == b.id &&
          ({ r with status := "cancelled", cancelledDate := some now } :
          Reservation).status == "active") = false := by simp
      rw [hmid] at *
      simp only [if_false] at *
      have : (0:Int) ≤ (if r.bookId == b.id && r.status == "active" then 1 else 0) := by
        split <;> simp
      push_cast at hbound ⊢
      split at hbound <;> omega
    · rcases List.mem_cons.mp hb with hb | hb
      · subst hb
        obtain ⟨h0, hbound⟩ := hcnt book (by simp)
        have hmatch : (r.bookId == book.id && r.status == "active") = true := by
          simp [hact, hbid.symm]
        rw [countActiveFor_middle, hmatch] at hbound
        simp only [if_true] at hbound
        refine ⟨by simp; omega, ?_⟩
        simp only [countActiveFor_middle]
        simp
        push_cast at hbound ⊢
        omega
      · obtain ⟨h0, hbound⟩ := hcnt b
          (List.mem_append_right _ (List.mem_cons_of_mem _ hb))
        refine ⟨h0, ?_⟩
        rw [countActiveFor_middle] at hbound ⊢
        have hmid : (({ r with status := "cancelled", cancelledDate := some now } :
            Reservation).bookId == b.id &&
            ({ r with status := "cancelled", cancelledDate := some now } :
            Reservation).status == "active") = false := by simp
        rw [hmid] at *
        simp only [if_false] at *
        push_cast at hbound ⊢
        split at hbound <;> omega

theorem consistent_cancelReservation (s : BookSystem) (u : Option User)
    (now : Int) (rid : String) (hs : Consistent s)
    (hallow : (s.reservations.find? (fun r => r.id == rid)).all
      (fun r => r.status == "active") = true) :
    Consistent (cancelReservation s u now rid).1 := by
  cases hfind : s.reservations.find? (fun r => r.id == rid) with
  | none => simpa [cancelReservation, hfind] using hs
  | some r =>
    cases u with
    | none => simpa [cancelReservation, hfind] using hs
    | some user =>
      by_cases hown : r.userId ≠ user.id
      · simpa [cancelReservation, hfind, hown] using hs
      · have hact : r.status = "active" := by
          rw [hfind] at hallow; simpa using hallow
        -- the referenced book exists because the reservation is still active
        have href := hs.2.1 r (List.mem_of_find?_eq_some hfind) hact
        have hbook : ∃ book, s.books.find? (fun b => b.id == r.bookId) = some book := by
          have : (s.books.find? (fun b => b.id == r.bookId)).isSome := by
            rw [List.find?_isSome]
            obtain ⟨b, hb, hbid⟩ := href
            exact ⟨b, hb, by simpa using hbid⟩
          exact Option.isSome_iff_exists.mp this
        obtain ⟨book, hbfind⟩ := hbook
        obtain ⟨hbp, B1, B2, hB, hB1⟩ := find?_decomp hbfind
        obtain ⟨hrp, R1, R2, hR, hR1⟩ := find?_decomp hfind
        have hmodB : modifyFirst (fun b => b.id == r.bookId)
            (fun b => { b with availableCopies := b.availableCopies + 1 }) s.books =
            B1 ++ { book with availableCopies := book.availableCopies + 1 } :: B2 := by
          rw [hB]; exact modifyFirst_append _ _ _ _ _ hB1 hbp
        have hmodR : modifyFirst (fun x => x.id == rid)
            (fun x => { x with status := "cancelled", cancelledDate := some now })
            s.reservations =
            R1 ++ { r with status := "cancelled", cancelledDate := some now } :: R2 := by
          rw [hR]; exact modifyFirst_append _ _ _ _ _ hR1 hrp
        simp only [cancelReservation, hfind, hown, if_false, hmodB, hmodR]
        exact consistent_cancel_core B1 B2 book R1 R2 r now
          (by rw [← hB, ← hR]; exact hs) (by simpa using hbp) hact

theorem consistent_addBook (s : BookSystem) (y : Int) (d : BookData)
    (hs : Consistent s)
    (hcopies : 0 ≤ parseIntOrDefault d.copies 1)
    (hfresh : slugify d.title ∉ s.books.map (fun b => b.id)) :
    Consistent (addBook s y d).1 := by
  obtain ⟨hnd, href, hcnt⟩ := hs
  refine ⟨?_, ?_, ?_⟩
  · simp only [addBook, List.map_append, List.map_cons, List.map_nil]
    rw [List.nodup_append]
    refine ⟨hnd, List.nodup_singleton _, ?_⟩
    intro x hx hx1
    simp only [List.mem_singleton] at hx1
    subst hx1
    exact hfresh hx
  · intro r hr hrac
    obtain ⟨b, hb, hbid⟩ := href r hr hrac
    exact ⟨b, List.mem_append_left _ hb, hbid⟩
  · intro b hb
    simp only [addBook] at hb
    rcases List.mem_append.mp hb with hb | hb
    · exact hcnt b hb
    · simp only [List.mem_singleton] at hb
      subst hb
      refine ⟨by simpa using hcopies, ?_⟩
      have hzero : countActiveFor s.reservations (slugify d.title) = 0 := by
        apply countActiveFor_eq_zero
        intro r hr hrac hreq
        obtain ⟨b, hb, hbid⟩ := href r hr hrac
        exact hfresh (List.mem_map.mpr ⟨b, hb, hbid.trans hreq⟩)
      simp only [addBook]
      rw [hzero]
      simp

theorem consistent_updateBook (s : BookSystem) (bid : String) (p : BookPatch)
    (hs : Consistent s) (hid : p.id = none) (htc : p.totalCopies = none)
    (hac : p.availableCopies = none) :
    Consistent (updateBook s bid p).1 := by
  cases hfind : s.books.find? (fun b => b.id == bid) with
  | none => simpa [updateBook, hfind] using hs
  | some b =>
    obtain ⟨hbp, B1, B2, hB, hB1⟩ := find?_decomp hfind
    have hmod : modifyFirst (fun x => x.id == bid) (fun x => applyPatch x p) s.books =
        B1 ++ applyPatch b p :: B2 := by
      rw [hB]; exact modifyFirst_append _ _ _ _ _ hB1 hbp
    obtain ⟨hnd, href, hcnt⟩ := (show Consistent ⟨B1 ++ b :: B2, s.reservations⟩ by
      rw [← hB]; exact hs)
    have hpid : (applyPatch b p).id = b.id := by simp [applyPatch, hid]
    have hptc : (applyPatch b p).totalCopies = b.totalCopies := by
      simp [applyPatch, htc]
    have hpac : (applyPatch b p).availableCopies = b.availableCopies := by
      simp [applyPatch, hac]
    have hids : (B1 ++ applyPatch b p :: B2).map (fun x => x.id) =
        (B1 ++ b :: B2).map (fun x => x.id) := by simp [hpid]
    simp only [updateBook, hfind, hmod]
    refine ⟨by rw [hids]; exact hnd, ?_, ?_⟩
    · intro r hr hrac
      exact exists_book_id_congr hids.symm (href r hr hrac)
    · intro x hx
      rcases List.mem_append.mp hx with hx | hx
      · exact hcnt x (List.mem_append_left _ hx)
      · rcases List.mem_cons.mp hx with hx | hx
        · subst hx
          obtain ⟨h0, hbound⟩ := hcnt b (by simp)
          rw [hpid, hptc, hpac]
          exact ⟨h0, hbound⟩
        · exact hcnt x (List.mem_append_right _ (List.mem_cons_of_mem _ hx))

theorem countActiveFor_cancelMap_le (rs : List Reservation) (bid : String)
    (now : Int) (t : String) :
    countActiveFor (rs.map (fun r =>
      if r.bookId == bid && r.status == "active" then
        { r with status := "cancelled", cancelledDate := some now }
      else r)) t ≤ countActiveFor rs t := by
  induction rs with
  | nil => simp [countActiveFor]
  | cons r rs ih =>
    simp only [List.map_cons, countActiveFor_cons]
    by_cases h : (r.bookId == bid && r.status == "active") = true
    · rw [if_pos h]
      have : (({ r with status := "cancelled", cancelledDate := some now } :
          Reservation).bookId == t &&
          ({ r with status := "cancelled", cancelledDate := some now } :
          Reservation).status == "active") = false := by simp
      rw [this]
      simp only [Bool.false_eq_true, if_false]
      have := ih
      split <;> omega
    · rw [if_neg h]
      have := ih
      split <;> omega

theorem consistent_deleteBook (s : BookSystem) (now : Int) (bid : String)
    (hs : Consistent s) : Consistent (deleteBook s now bid).1 := by
  cases hfind : s.books.findIdx? (fun b => b.id == bid) with
  | none => simpa [deleteBook, hfind] using hs
  | some i =>
    obtain ⟨hlen, hpi, hprev⟩ := List.findIdx?_eq_some_iff_getElem.mp hfind
    have hB : s.books = s.books.take i ++ s.books[i] :: s.books.drop (i + 1) := by
      conv_lhs => rw [← List.take_append_drop i s.books]
      rw [List.drop_eq_getElem_cons hlen]
    have hErase : s.books.eraseIdx i = s.books.take i ++ s.books.drop (i + 1) :=
      List.eraseIdx_eq_take_drop_succ s.books i
    have hbkid : s.books[i].id = bid := by simpa using hpi
    obtain ⟨hnd, href, hcnt⟩ := hs
    simp only [deleteBook, hfind, hErase]
    refine ⟨?_, ?_, ?_⟩
    · have hsub : (s.books.take i ++ s.books.drop (i + 1)).map (fun b => b.id) |>.Sublist
          (s.books.map (fun b => b.id)) := by
        apply List.Sublist.map
        conv_rhs => rw [hB]
        exact (List.sublist_cons_self _ _).append_left _
      exact hsub.nodup hnd
    · intro r hr hrac
      obtain ⟨r0, hr0, hfr0⟩ := List.mem_map.mp hr
      by_cases hcond : (r0.bookId == bid && r0.status == "active") = true
      · rw [if_pos hcond] at hfr0
        rw [← hfr0] at hrac
        simp at hrac
      · rw [if_neg hcond] at hfr0
        subst hfr0
        obtain ⟨b, hb, hbid⟩ := href r0 hr0 hrac
        have hne : r0.bookId ≠ bid := by
          intro hEq
          exact hcond (by simp [hEq, hrac])
        refine ⟨b, ?_, hbid⟩
        rw [hB] at hb
        rcases List.mem_append.mp hb with hb | hb
        · exact List.mem_append_left _ hb
        · rcases List.mem_cons.mp hb with hb | hb
          · exact absurd (hb ▸ hbid : b.id = r0.bookId) (by rw [hb, hbkid]; exact fun h => hne h.symm)
          · exact List.mem_append_right _ hb
    · intro b hb
      have hbm : b ∈ s.books := by
        rw [hB]
        rcases List.mem_append.mp hb with hb | hb
        · exact List.mem_append_left _ hb
        · exact List.mem_append_right _ (List.mem_cons_of_mem _ hb)
      obtain ⟨h0, hbound⟩ := hcnt b hbm
      refine ⟨h0, ?_⟩
      have hle := countActiveFor_cancelMap_le s.reservations bid now b.id
      have := hbound
      push_cast at this ⊢
      omega

theorem copiesInvariant_of_consistent (s : BookSystem) (hs : Consistent s) :
    CopiesInvariant s := by
  intro b hb
  obtain ⟨h0, hbound⟩ := hs.2.2 b hb
  have : (0:Int) ≤ (countActiveFor s.reservations b.id : Int) := by positivity
  exact ⟨h0, by omega⟩

theorem consistent_applyOp (s : BookSystem) (op : Op) (hs : Consistent s)
    (hop : opAllowed s op) : Consistent (applyOp s op) := by
  cases op with
  | reserve u now bid notes => exact consistent_reserveBook s u now bid notes hs
  | cancel u now rid => exact consistent_cancelReservation s u now rid hs hop
  | add y d => exact consistent_addBook s y d hs hop.1 hop.2
  | update bid p => exact consistent_updateBook s bid p hs hop.1 hop.2.1 hop.2.2
  | delete now bid => exact consistent_deleteBook s now bid hs

theorem consistent_applyOps (s : BookSystem) (ops : List Op) (hs : Consistent s)
    (hops : opsAllowed s ops) : Consistent (applyOps s ops) := by
  induction ops generalizing s with
  | nil => exact hs
  | cons op ops ih => exact ih _ (consistent_applyOp s op hs hops.1) hops.2

/-! ## Concrete fixtures for witnesses and counterexamples -/

/-- Example customer used in concrete evaluations. -/
def aliceUser : User :=
  { id := 7, email := "alice@example.com", name := "alice", type := "customer" }

/-- Example book with one copy in stock. -/
def mysteryBook : Book :=
  { id := "silent-patient", title := "The Silent Patient",
    author := "Alex Michaelides", genre := "Mystery & Thriller",
    description := "", totalCopies := 1, availableCopies := 1, rating := 0,
    isbn := "", pages := 336, year := 2019, icon := "fas fa-search",
    tags := ["psychological", "thriller", "mystery"] }

/-- Example active reservation of `mysteryBook` by `aliceUser`, as
`reserveBook` creates it at time 1000 (the book's copy is checked out, so the
book is listed with 0 available). -/
def aliceReservation : Reservation :=
  { id := "RES-1000", bookId := "silent-patient", userId := 7,
    userEmail := "alice@example.com", userName := "alice",
    bookTitle := "The Silent Patient", bookAuthor := "Alex Michaelides",
    reservationDate := 1000, expiryDate := 1000 + sevenDaysMs,
    status := "active", notes := "", cancelledDate := none }

/-! ## Claim C1 -/

/-- C1 (counterexample): the claim that `0 ≤ availableCopies ≤ totalCopies`
survives any sequence of reserve/cancel/add/update/delete operations is false
on the code: starting from a state where the invariant holds (one book, one
copy, one available), a single `updateBook` call patching `availableCopies`
to 5 drives `availableCopies` above `totalCopies`, because `updateBook`
overwrites any key present on the book without a bound check. -/
theorem C1_copies_invariant_counterexample :
    CopiesInvariant ⟨[mysteryBook], []⟩ ∧
    ¬ CopiesInvariant (applyOps ⟨[mysteryBook], []⟩
      [.update "silent-patient" { availableCopies := some 5 }]) := by
  constructor
  · decide
  · decide

/-- C1 (amended): for every book `b`, the invariant
`0 ≤ b.availableCopies ≤ b.totalCopies` holds after any sequence of reserve,
cancel, add, update and delete operations, provided the starting state is
consistent (distinct book ids, every active reservation references a present
book, and each book's available copies plus its active-reservation count is
at most `totalCopies`) and each operation is allowed: cancels target only
still-active reservations, adds carry a fresh identifier and a nonnegative
parsed copies value, and updates do not patch `id`, `totalCopies` or
`availableCopies`.  Without these side conditions the invariant can be
broken, as `C1_copies_invariant_counterexample` shows for update. -/
theorem C1_copies_invariant_preserved (s : BookSystem) (ops : List Op)
    (hs : Consistent s) (hops : opsAllowed s ops) :
    CopiesInvariant (applyOps s ops) :=
  copiesInvariant_of_consistent _ (consistent_applyOps s ops hs hops)

/-- C1 (witness): the amended invariant theorem applied to a concrete run:
reserve the single copy of the example book, then cancel the resulting
reservation. -/
theorem C1_copies_invariant_preserved_witness :
    CopiesInvariant (applyOps ⟨[mysteryBook], []⟩
      [.reserve (some aliceUser) 1000 "silent-patient" none,
       .cancel (some aliceUser) 2000 "RES-1000"]) :=
  C1_copies_invariant_preserved _ _ (by decide) (by decide)

/-! ## Claim C2 -/

/-- C2 (code bug, failing input evaluated): `cancelReservation` never checks
the reservation's status, so cancelling the same reservation twice is not
rejected with `AlreadyCancelled` as the claim requires.  Starting from the
example book with its single copy checked out and Alice's active reservation:
the first cancel sets the status to `"cancelled"` and returns the copy
(1 available); the second cancel on the now-cancelled reservation still
succeeds and increments again, leaving 2 available copies out of 1 total. -/
theorem C2_cancel_already_cancelled_not_rejected :
    (let s0 : BookSystem :=
       ⟨[{ mysteryBook with availableCopies := 0 }], [aliceReservation]⟩
     let s1 := (cancelReservation s0 (some aliceUser) 2000 "RES-1000").1
     let step2 := cancelReservation s1 (some aliceUser) 3000 "RES-1000"
     (s1.reservations.map (fun r => r.status) = ["cancelled"] ∧
      s1.books.map (fun b => b.availableCopies) = [1]) ∧
     step2.2 = .ok ∧
     step2.1.books.map (fun b => b.availableCopies) = [2]) := by
  decide

/-! ## Claim C10 -/

/-- C10: cancelling an existing reservation owned by the caller whose
referenced book is no longer in the catalog still succeeds — the
reservation's status is set to `"cancelled"` with `cancelledDate` stamped,
the result is `{success: true}`, and the book list (hence every book's
`availableCopies`) is unchanged, because the increment is guarded by
`if (book)`. -/
theorem C10_cancel_missing_book (s : BookSystem) (u : User) (now : Int)
    (rid : String) (r : Reservation)
    (hfind : s.reservations.find? (fun x => x.id == rid) = some r)
    (hown : r.userId = u.id)
    (hnobook : ∀ b ∈ s.books, b.id ≠ r.bookId) :
    (cancelReservation s (some u) now rid).2 = .ok ∧
    (cancelReservation s (some u) now rid).1.books = s.books ∧
    ((cancelReservation s (some u) now rid).1.reservations.find?
        (fun x => x.id == rid)) =
      some { r with status := "cancelled", cancelledDate := some now } := by
  obtain ⟨hrp, R1, R2, hR, hR1⟩ := find?_decomp hfind
  have hmodB : modifyFirst (fun b => b.id == r.bookId)
      (fun b => { b with availableCopies := b.availableCopies + 1 }) s.books =
      s.books :=
    modifyFirst_eq_self _ _ _ (fun b hb => by simpa using hnobook b hb)
  have hmodR : modifyFirst (fun x => x.id == rid)
      (fun x => { x with status := "cancelled", cancelledDate := some now })
      s.reservations =
      R1 ++ { r with status := "cancelled", cancelledDate := some now } :: R2 := by
    rw [hR]; exact modifyFirst_append _ _ _ _ _ hR1 hrp
  have hown' : ¬ r.userId ≠ u.id := by simpa using hown
  refine ⟨by simp [cancelReservation, hfind, hown'], ?_, ?_⟩
  · simp [cancelReservation, hfind, hown', hmodB]
  · simp only [cancelReservation, hfind, hown', if_false]
    rw [hmodR]
    rw [List.find?_append]
    have h1 : R1.find? (fun x => x.id == rid) = none := by
      rw [List.find?_eq_none]
      intro x hx
      simpa using hR1 x hx
    rw [h1]
    simp [hrp]

/-- C10 (witness): concrete run — Alice's reservation references
`"silent-patient"` but the catalog is empty; the cancel succeeds, stamps the
reservation, and changes no book. -/
theorem C10_cancel_missing_book_witness :
    ((cancelReservation ⟨[], [aliceReservation]⟩ (some aliceUser) 2000
        "RES-1000").2 = .ok ∧
     (cancelReservation ⟨[], [aliceReservation]⟩ (some aliceUser) 2000
        "RES-1000").1.books = [] ∧
     ((cancelReservation ⟨[], [aliceReservation]⟩ (some aliceUser) 2000
        "RES-1000").1.reservations.find? (fun x => x.id == "RES-1000")) =
       some { aliceReservation with
              status := "cancelled"
              cancelledDate := some 2000 }) :=
  C10_cancel_missing_book ⟨[], [aliceReservation]⟩ aliceUser 2000 "RES-1000"
    aliceReservation (by decide) (by decide) (by decide)

/-! ## Claim C3 -/

/-- C3: a successful `reserveBook` call (caller authenticated, book found
with a positive `availableCopies`, no active reservation for the same
(bookId, userId) pair) appends exactly one new reservation with status
`"active"` whose `expiryDate` is its `reservationDate` plus 7 days,
decrements the found book's `availableCopies` by exactly 1 while every other
book is untouched, and returns the new reservation's identifier and
`expiryDate`. -/
theorem C3_reserve_success (s : BookSystem) (u : User) (now : Int)
    (bookId : String) (notes : Option String) (b : Book)
    (hfind : s.books.find? (fun x => x.id == bookId) = some b)
    (havail : 0 < b.availableCopies)
    (hdup : (s.reservations.any (fun r =>
      r.bookId == bookId && r.userId == u.id && r.status == "active")) = false) :
    ∃ res : Reservation,
      (reserveBook s (some u) now bookId notes).2 = .ok res.id res.expiryDate ∧
      (reserveBook s (some u) now bookId notes).1.reservations =
        s.reservations ++ [res] ∧
      res.status = "active" ∧
      res.expiryDate = res.reservationDate + sevenDaysMs ∧
      ((reserveBook s (some u) now bookId notes).1.books.find?
          (fun x => x.id == bookId)) =
        some { b with availableCopies := b.availableCopies - 1 } ∧
      ∀ x ∈ (reserveBook s (some u) now bookId notes).1.books,
        x.id ≠ bookId → x ∈ s.books := by
  obtain ⟨hp, B1, B2, hB, hB1⟩ := find?_decomp hfind
  have hbid : b.id = bookId := by simpa using hp
  have havail' : ¬ b.availableCopies ≤ 0 := by omega
  have hmod : modifyFirst (fun x => x.id == bookId)
      (fun x => { x with availableCopies := x.availableCopies - 1 }) s.books =
      B1 ++ { b with availableCopies := b.availableCopies - 1 } :: B2 := by
    rw [hB]; exact modifyFirst_append _ _ _ _ _ hB1 hp
  refine ⟨{ id := "RES-" ++ toString now, bookId := bookId, userId := u.id,
            userEmail := u.email, userName := u.name, bookTitle := b.title,
            bookAuthor := b.author, reservationDate := now,
            expiryDate := now + sevenDaysMs, status := "active",
            notes := notes.getD "", cancelledDate := none },
    ?_, ?_, rfl, rfl, ?_, ?_⟩
  · simp [reserveBook, hfind, havail', hdup]
  · simp [reserveBook, hfind, havail', hdup]
  · simp only [reserveBook, hfind, havail', if_false, hdup, Bool.false_eq_true,
      hmod]
    rw [List.find?_append]
    have h1 : B1.find? (fun x => x.id == bookId) = none := by
      rw [List.find?_eq_none]
      intro x hx
      simpa using (by simpa using hB1 x hx : ¬ x.id = bookId)
    rw [h1]
    simp [hbid]
  · intro x hx hxne
    simp only [reserveBook, hfind, havail', if_false, hdup, Bool.false_eq_true,
      hmod] at hx
    rw [hB]
    rcases List.mem_append.mp hx with hx | hx
    · exact List.mem_append_left _ hx
    · rcases List.mem_cons.mp hx with hx | hx
      · exact absurd (by rw [hx]; simpa using hbid) hxne
      · exact List.mem_append_right _ (List.mem_cons_of_mem _ hx)

/-- C3 (witness): the success theorem applied to the example book at time
1000 with Alice logged in. -/
theorem C3_reserve_success_witness :
    ∃ res : Reservation,
      (reserveBook ⟨[mysteryBook], []⟩ (some aliceUser) 1000 "silent-patient"
        none).2 = .ok res.id res.expiryDate ∧
      (reserveBook ⟨[mysteryBook], []⟩ (some aliceUser) 1000 "silent-patient"
        none).1.reservations = [] ++ [res] ∧
      res.status = "active" ∧
      res.expiryDate = res.reservationDate + sevenDaysMs ∧
      ((reserveBook ⟨[mysteryBook], []⟩ (some aliceUser) 1000 "silent-patient"
          none).1.books.find? (fun x => x.id == "silent-patient")) =
        some { mysteryBook with availableCopies := mysteryBook.availableCopies - 1 } ∧
      ∀ x ∈ (reserveBook ⟨[mysteryBook], []⟩ (some aliceUser) 1000
          "silent-patient" none).1.books,
        x.id ≠ "silent-patient" → x ∈ [mysteryBook] :=
  C3_reserve_success ⟨[mysteryBook], []⟩ aliceUser 1000 "silent-patient" none
    mysteryBook (by decide) (by decide) (by decide)

/-! ## Claim C4 -/

/-- C4: `reserveBook` failure modes, checked in order — an unauthenticated
caller fails with the log-in message (`Unauthenticated`), then a missing book
fails with `Book not found` (`NotFound`), then a non-positive
`availableCopies` fails with the no-copies message (`NoCopiesAvailable`),
then an existing active reservation for the same (bookId, userId) pair fails
with the already-reserved message (`DuplicateReservation`); each failure
returns `success = false` with the state (book set and reservation set)
unchanged. -/
theorem C4_reserve_failure_modes (s : BookSystem) (now : Int) (bookId : String)
    (notes : Option String) :
    (reserveBook s none now bookId notes =
      (s, .failure "Please log in to reserve books")) ∧
    (∀ u : User, s.books.find? (fun x => x.id == bookId) = none →
      reserveBook s (some u) now bookId notes =
        (s, .failure "Book not found")) ∧
    (∀ (u : User) (b : Book), s.books.find? (fun x => x.id == bookId) = some b →
      b.availableCopies ≤ 0 →
      reserveBook s (some u) now bookId notes =
        (s, .failure "No copies available for reservation")) ∧
    (∀ (u : User) (b : Book), s.books.find? (fun x => x.id == bookId) = some b →
      0 < b.availableCopies →
      (s.reservations.any (fun r =>
        r.bookId == bookId && r.userId == u.id && r.status == "active")) = true →
      reserveBook s (some u) now bookId notes =
        (s, .failure "You already have this book reserved")) := by
  refine ⟨by simp [reserveBook], ?_, ?_, ?_⟩
  · intro u hfind
    simp [reserveBook, hfind]
  · intro u b hfind hz
    simp [reserveBook, hfind, hz]
  · intro u b hfind hpos hdup
    have : ¬ b.availableCopies ≤ 0 := by omega
    simp [reserveBook, hfind, this, hdup]

/-- C4 (witness): the no-copies branch applied concretely — the example book
with zero available copies rejects Alice's reservation and leaves the state
unchanged. -/
theorem C4_reserve_failure_modes_witness :
    reserveBook ⟨[{ mysteryBook with availableCopies := 0 }], []⟩
        (some aliceUser) 1000 "silent-patient" none =
      (⟨[{ mysteryBook with availableCopies := 0 }], []⟩,
       .failure "No copies available for reservation") :=
  (C4_reserve_failure_modes ⟨[{ mysteryBook with availableCopies := 0 }], []⟩
      1000 "silent-patient" none).2.2.1 aliceUser
    { mysteryBook with availableCopies := 0 } (by decide) (by decide)

/-! ## Claim C5 -/

/-- C5 (code bug, failing input evaluated): the claim — and the spec's
endpoint table — require `POST /api/reservations/sync` to answer 200 with a
`{message}` body (or 500 on store failure), and the client's
`syncWithServer` posts to exactly this path; but `src/server.js` registers no
route for it (no reservations route at all), so the request falls through to
the catch-all handler and is answered 404 `{message: 'Endpoint not found'}`
regardless of the body. -/
theorem C5_reservations_sync_unrouted :
    dispatch .POST "/api/reservations/sync" = .notFound ∧
    dispatchStatus (dispatch .POST "/api/reservations/sync") = some 404 ∧
    ∀ r ∈ serverRoutes, r.2 ≠ "/api/reservations/sync" := by
  decide

/-! ## Claim C9 -/

/-- C9: when every one of the 3 attempts fails, `readJsonFile` returns the
empty collection (the `[]` of its last-retry catch branch — no exception
reaches the caller) and `writeJsonFile` returns `false`; in both loops a
fixed 100 ms delay is awaited after each failed attempt except the last, so
the all-fail run performs exactly 2 delays. -/
theorem C9_store_retry_exhaustion {α : Type} (attemptR : Nat → Option (List α))
    (attemptW : Nat → Bool)
    (hR : ∀ i < 3, attemptR i = none) (hW : ∀ i < 3, attemptW i = false) :
    readJsonFile attemptR 3 = (some [], 2) ∧
    writeJsonFile attemptW 3 = (some false, 2) := by
  constructor
  · simp [readJsonFile, readLoop, hR 0 (by omega), hR 1 (by omega),
      hR 2 (by omega)]
  · simp [writeJsonFile, writeLoop, hW 0 (by omega), hW 1 (by omega),
      hW 2 (by omega)]

/-- C9 (witness): the retry-exhaustion theorem applied to the
always-failing attempt oracles. -/
theorem C9_store_retry_exhaustion_witness :
    readJsonFile (fun _ => (none : Option (List Int))) 3 = (some [], 2) ∧
    writeJsonFile (fun _ => false) 3 = (some false, 2) :=
  C9_store_retry_exhaustion (fun _ => none) (fun _ => false)
    (fun _ _ => rfl) (fun _ _ => rfl)

/-! ## Claim C6 -/

/-- C6 (counterexample): an offline login with a well-formed non-empty email
and password succeeds, yet records no expiry at all — `authExpiry` stays
unset — contradicting the claim that a fixed 4-hour expiry is recorded.
`handleOfflineLogin` performs its own three `sessionStorage.setItem` calls
and never calls `storeSession`, the only writer of `authExpiry`. -/
theorem C6_offline_login_no_expiry :
    (handleOfflineLogin SessionStorage.empty 1000 "alice@example.com" "pw"
        "customer").2 =
      .ok { id := 1000, email := "alice@example.com", name := "alice",
            type := "customer" } ∧
    (handleOfflineLogin SessionStorage.empty 1000 "alice@example.com" "pw"
        "customer").1.authExpiry = none := by
  decide

/-- C6 (amended): an offline login with an empty email or password fails with
the missing-credentials message; a non-empty email without `"@"` fails with
the invalid-format message (storage untouched in both cases); otherwise the
login succeeds and records in per-session storage an opaque token, the
serialized fabricated user (id = current time, name = email local-part,
declared type) and the declared type — but no expiry: `authExpiry` keeps its
prior value, the fixed 4-hour expiry being written only by the
connected-mode `storeSession`. -/
theorem C6_offline_login_amended (ss : SessionStorage) (now : Int)
    (email password userType : String) :
    ((email = "" ∨ password = "") →
      handleOfflineLogin ss now email password userType =
        (ss, .failure "Email and password required")) ∧
    (email ≠ "" → password ≠ "" → jsIncludes email "@" = false →
      handleOfflineLogin ss now email password userType =
        (ss, .failure "Invalid email format")) ∧
    (email ≠ "" → password ≠ "" → jsIncludes email "@" = true →
      handleOfflineLogin ss now email password userType =
        ({ ss with
            authToken := some ("demo-token-" ++ toString now)
            currentUser := some
              { id := now, email := email,
                name := String.mk (email.data.takeWhile (fun c => c ≠ '@')),
                type := userType }
            userType := some userType },
         .ok { id := now, email := email,
               name := String.mk (email.data.takeWhile (fun c => c ≠ '@')),
               type := userType })) ∧
    ((handleOfflineLogin ss now email password userType).1.authExpiry =
      ss.authExpiry) ∧
    (storeSession ss now ("demo-token-" ++ toString now)
        { id := now, email := email,
          name := String.mk (email.data.takeWhile (fun c => c ≠ '@')),
          type := userType } userType).authExpiry =
      some (now + 4 * 60 * 60 * 1000) := by
  refine ⟨?_, ?_, ?_, ?_, rfl⟩
  · intro h
    rcases h with h | h <;> simp [handleOfflineLogin, h]
  · intro he hp hat
    simp [handleOfflineLogin, he, hp, hat]
  · intro he hp hat
    simp [handleOfflineLogin, he, hp, hat]
  · by_cases he : email = ""
    · simp [handleOfflineLogin, he]
    · by_cases hp : password = ""
      · simp [handleOfflineLogin, he, hp]
      · by_cases hat : jsIncludes email "@" = true
        · simp [handleOfflineLogin, he, hp, hat]
        · simp [handleOfflineLogin, he, hp,
            (by simpa using hat : jsIncludes email "@" = false)]

/-- C6 (witness): the amended theorem's success branch evaluated for Alice's
offline login at time 1000, and the resulting storage spelled out. -/
theorem C6_offline_login_amended_witness :
    handleOfflineLogin SessionStorage.empty 1000 "alice@example.com" "pw"
        "customer" =
      ({ authToken := some "demo-token-1000"
         currentUser := some
           { id := 1000, email := "alice@example.com",
             name := "alice", type := "customer" }
         userType := some "customer"
         authExpiry := none },
       .ok { id := 1000, email := "alice@example.com", name := "alice",
             type := "customer" }) := by
  have h := (C6_offline_login_amended SessionStorage.empty 1000
      "alice@example.com" "pw" "customer").2.2.1
    (by decide) (by decide) (by decide)
  exact h.trans (by decide)

/-! ## Claim C7 -/

/-- Book form input with a copies field of `"0"`: a valid integer is
supplied, so the claim requires `totalCopies = 0`. -/
def zeroCopiesData : BookData :=
  { title := "Test Book", author := "A. Author", genre := "Romance",
    description := none, copies := "0", isbn := none, pages := "",
    year := "", tags := none }

/-- C7 (counterexample): the claim says `totalCopies` and `availableCopies`
are set to the integer parsed from the copies input, with the default 1 used
only when no valid integer is supplied; but for the input string `"0"` the
parse succeeds with the valid integer 0 and the code (`parseInt(...) || 1`)
still sets 1, because the falsy number 0 also triggers the `|| 1`
fallback. -/
theorem C7_addBook_zero_copies :
    jsParseInt "0" = some 0 ∧
    (addBook ⟨[], []⟩ 2024 zeroCopiesData).2.totalCopies = 1 ∧
    (addBook ⟨[], []⟩ 2024 zeroCopiesData).2.totalCopies ≠ 0 := by
  decide

/-- C7 (amended): for every input, `addBook` derives the identifier by
lowercasing the title, collapsing whitespace runs to hyphens and stripping
characters outside `[a-z0-9-]` (so every character of the identifier is in
that class); it sets `totalCopies` and `availableCopies` both to the parsed
copies integer, defaulting to 1 when no valid integer is supplied **or when
the parsed integer is 0** (the falsy-zero behavior of `parseInt(...) || 1`);
and it assigns the genre-to-icon mapping with the fallback `'fas fa-book'`
for genres outside the table. -/
theorem C7_addBook_amended (s : BookSystem) (y : Int) (d : BookData) :
    (addBook s y d).2.id = slugify d.title ∧
    (∀ c ∈ ((addBook s y d).2.id).data, isSlugChar c = true) ∧
    (addBook s y d).2.availableCopies = (addBook s y d).2.totalCopies ∧
    (∀ n : Int, jsParseInt d.copies = some n → n ≠ 0 →
      (addBook s y d).2.totalCopies = n) ∧
    ((jsParseInt d.copies = none ∨ jsParseInt d.copies = some 0) →
      (addBook s y d).2.totalCopies = 1) ∧
    (addBook s y d).2.icon = getGenreIcon d.genre ∧
    (iconMap.find? (fun kv => kv.1 == d.genre) = none →
      (addBook s y d).2.icon = "fas fa-book") := by
  refine ⟨rfl, ?_, rfl, ?_, ?_, rfl, ?_⟩
  · intro c hc
    simp only [addBook, slugify, String.mk] at hc
    exact List.of_mem_filter hc
  · intro n hn hn0
    simp [addBook, parseIntOrDefault, hn, hn0]
  · intro h
    rcases h with h | h <;> simp [addBook, parseIntOrDefault, h]
  · intro h
    simp [addBook, getGenreIcon, h]

/-- C7 (witness): the amended theorem applied to a concrete input — title
`"My  Great Book!"` (double space, punctuation), copies `"3"`, unknown
genre — every conjunct discharged at that input, including the identifier
character-class property, the copies value 3, and the fallback icon. -/
theorem C7_addBook_amended_witness :
    (addBook ⟨[], []⟩ 2024
        { title := "My  Great Book!", author := "A. Author",
          genre := "Cooking", description := none, copies := "3",
          isbn := none, pages := "", year := "", tags := none }).2.totalCopies
      = 3 ∧
    (addBook ⟨[], []⟩ 2024
        { title := "My  Great Book!", author := "A. Author",
          genre := "Cooking", description := none, copies := "3",
          isbn := none, pages := "", year := "", tags := none }).2.icon
      = "fas fa-book" := by
  have h := C7_addBook_amended ⟨[], []⟩ 2024
    { title := "My  Great Book!", author := "A. Author",
      genre := "Cooking", description := none, copies := "3",
      isbn := none, pages := "", year := "", tags := none }
  exact ⟨h.2.2.2.1 3 (by decide) (by decide), h.2.2.2.2.2.2 (by decide)⟩

/-! ## Claim C8 -/

/-- Specification-side per-book query predicate, following the claim's words:
an empty or whitespace-only query matches every book; otherwise the book's
title, author, genre or any tag must contain the query as a case-insensitive
substring. -/
def specQueryMatch (query : String) (b : Book) : Bool :=
  if jsTrim query = "" then true
  else
    jsIncludes (jsToLower b.title) (jsToLower query) ||
    jsIncludes (jsToLower b.author) (jsToLower query) ||
    jsIncludes (jsToLower b.genre) (jsToLower query) ||
    b.tags.any (fun t => jsIncludes (jsToLower t) (jsToLower query))

/-- Specification-side per-book genre predicate: when a genre is present and
is not the sentinel `"all"`, the book's genre must contain it as a
case-insensitive substring.  (An absent or empty genre — both falsy in the
source's `genre && genre !== 'all'` guard — restricts nothing.) -/
def specGenreMatch (genre : Option String) (b : Book) : Bool :=
  match genre with
  | none => true
  | some g =>
    if g = "" || g = "all" then true
    else jsIncludes (jsToLower b.genre) (jsToLower g)

theorem jsTrim_empty : jsTrim "" = "" := rfl

theorem matchesQuery_eq_specQueryMatch (query : String) (b : Book)
    (h : jsTrim query ≠ "") :
    matchesQuery (jsToLower query) b = specQueryMatch query b := by
  simp [matchesQuery, specQueryMatch, h]

/-- C8: `searchBooks` returns exactly the books passing the claim's query and
genre predicates, filtered in catalog order — hence a subsequence of the
catalog's book list (insertion order preserved); and, being a pure function
of the state, it mutates nothing. -/
theorem C8_search_filter (s : BookSystem) (query : String)
    (genre : Option String) :
    searchBooks s query genre =
      s.books.filter (fun b => specQueryMatch query b && specGenreMatch genre b) ∧
    (searchBooks s query genre).Sublist s.books := by
  have hmain : searchBooks s query genre =
      s.books.filter (fun b => specQueryMatch query b && specGenreMatch genre b) := by
    by_cases htrim : jsTrim query = ""
    · have hq : (decide (query ≠ "") && decide (jsTrim query ≠ "")) = false := by
        simp [htrim]
      have hspecq : ∀ b : Book, specQueryMatch query b = true := by
        intro b; simp [specQueryMatch, htrim]
      cases genre with
      | none =>
        simp only [searchBooks, hq, Bool.false_eq_true, if_false]
        have heq : List.filter (fun b => specQueryMatch query b &&
            specGenreMatch none b) s.books =
            List.filter (fun _ => true) s.books :=
          List.filter_congr (fun b _ => by simp [hspecq b, specGenreMatch])
        rw [heq, List.filter_true]
      | some g =>
        by_cases hgp : (decide (g ≠ "") && decide (g ≠ "all")) = true
        · obtain ⟨hg1, hg2⟩ : ¬ g = "" ∧ ¬ g = "all" := by simpa using hgp
          simp only [searchBooks, hq, Bool.false_eq_true, if_false, hgp, if_true]
          exact List.filter_congr (fun b _ => by
            simp [hspecq b, specGenreMatch, hg1, hg2])
        · have hgf : (decide (g ≠ "") && decide (g ≠ "all")) = false := by
            revert hgp; cases decide (g ≠ "") && decide (g ≠ "all") <;> simp
          have hg' : g = "" ∨ g = "all" := by
            by_cases h : g = ""
            · exact Or.inl h
            · refine Or.inr ?_
              have := hgf
              simp [h] at this
              exact this
          simp only [searchBooks, hq, hgf, Bool.false_eq_true, if_false]
          have heq : List.filter (fun b => specQueryMatch query b &&
              specGenreMatch (some g) b) s.books =
              List.filter (fun _ => true) s.books :=
            List.filter_congr (fun b _ => by
              rcases hg' with h | h <;> simp [hspecq b, specGenreMatch, h])
          rw [heq, List.filter_true]
    · have hqne : ¬ query = "" := by
        intro h; exact htrim (by rw [h]; exact jsTrim_empty)
      have hq : (decide (query ≠ "") && decide (jsTrim query ≠ "")) = true := by
        simp [hqne, htrim]
      cases genre with
      | none =>
        simp only [searchBooks, hq, if_true]
        exact List.filter_congr (fun b _ => by
          simp [matchesQuery_eq_specQueryMatch query b htrim, specGenreMatch])
      | some g =>
        by_cases hgp : (decide (g ≠ "") && decide (g ≠ "all")) = true
        · obtain ⟨hg1, hg2⟩ : ¬ g = "" ∧ ¬ g = "all" := by simpa using hgp
          simp only [searchBooks, hq, if_true, hgp, List.filter_filter]
          exact List.filter_congr (fun b _ => by
            simp [matchesQuery_eq_specQueryMatch query b htrim, specGenreMatch,
              hg1, hg2, Bool.and_comm])
        · have hgf : (decide (g ≠ "") && decide (g ≠ "all")) = false := by
            revert hgp; cases decide (g ≠ "") && decide (g ≠ "all") <;> simp
          have hg' : g = "" ∨ g = "all" := by
            by_cases h : g = ""
            · exact Or.inl h
            · refine Or.inr ?_
              have := hgf
              simp [h] at this
              exact this
          simp only [searchBooks, hq, if_true, hgf, Bool.false_eq_true, if_false]
          exact List.filter_congr (fun b _ => by
            rcases hg' with h | h <;>
              simp [matchesQuery_eq_specQueryMatch query b htrim,
                specGenreMatch, h])
  exact ⟨hmain, hmain ▸ List.filter_sublist _⟩

end Crumbelore
